import Mathlib

/-!
Shallow embedding of the authorization-and-audit core of a Node/Express
user-management API, together with theorems settling the specification's
claims about it.

JavaScript strings are modelled as `List Char`, absent (`undefined`/`null`)
values as `Option`, and JS runtime failures (`TypeError`, thrown `Error`s)
as `Except JSErr`.  Mongo collections are modelled as Lean lists of records;
every operation that mutates state returns the new list.
-/

set_option maxHeartbeats 1000000

/-- A JavaScript string, modelled as its character list. -/
abbrev Str := List Char

/-- Convert a Lean string literal to the `Str` model. -/
def toStr (s : String) : Str := s.data

/-- JS runtime failures: a `TypeError` from accessing a property of
`undefined`/calling a missing method, or a thrown `Error` with a message. -/
inductive JSErr where
  | typeError
  | error (msg : String)
deriving DecidableEq, Repr

deriving instance DecidableEq for Except

/-- Does `s` start with `pat`?  (Model of prefix testing used by the
first-occurrence semantics of JS `String.prototype.replace`.) -/
def leadMatch : Str → Str → Bool
  | [], _ => true
  | _ :: _, [] => false
  | a :: as, b :: bs => if a = b then leadMatch as bs else false

/-- Remove the first occurrence of `pat` from `s`: the model of JS
`s.replace(pat, '')` with a string pattern (which replaces only the first
occurrence). -/
def removeFirst (pat : Str) : Str → Str
  | [] => []
  | c :: rest =>
    if leadMatch pat (c :: rest) then (c :: rest).drop pat.length
    else c :: removeFirst pat rest

/-- Does `pat` occur (as a contiguous substring) in `s`? -/
def occursB (pat : Str) : Str → Bool
  | [] => leadMatch pat []
  | c :: rest => leadMatch pat (c :: rest) || occursB pat rest

theorem leadMatch_iff (p : Str) : ∀ s : Str, leadMatch p s = true ↔ ∃ t, s = p ++ t := by
  induction p with
  | nil => intro s; simp [leadMatch]
  | cons a as ih =>
    intro s
    cases s with
    | nil => simp [leadMatch]
    | cons b bs =>
      by_cases hab : a = b
      · subst hab
        simp only [leadMatch, if_pos rfl, if_true]
        rw [ih bs]
        constructor
        · rintro ⟨t, rfl⟩; exact ⟨t, rfl⟩
        · rintro ⟨t, ht⟩
          exact ⟨t, by simpa using ht⟩
      · simp only [leadMatch, if_neg hab]
        constructor
        · intro h; exact absurd h (by simp)
        · rintro ⟨t, ht⟩
          exact absurd (List.head_eq_of_cons_eq ht).symm hab

theorem leadMatch_append_self (p t : Str) : leadMatch p (p ++ t) = true :=
  (leadMatch_iff p (p ++ t)).2 ⟨t, rfl⟩

theorem leadMatch_length {p s : Str} (h : leadMatch p s = true) : p.length ≤ s.length := by
  obtain ⟨t, rfl⟩ := (leadMatch_iff p s).1 h
  simp

theorem occursB_of_suffix {pat s : Str} (hp : pat ≠ [])
    (h : ∃ t, s = t ++ pat) : occursB pat s = true := by
  obtain ⟨t, rfl⟩ := h
  induction t with
  | nil =>
    cases pat with
    | nil => exact absurd rfl hp
    | cons a as =>
      have h := leadMatch_append_self (a :: as) []
      rw [List.append_nil] at h
      simp [occursB, h]
  | cons c cs ih =>
    simp only [List.cons_append, occursB, Bool.or_eq_true]
    exact Or.inr ih

theorem removeFirst_length_lt {pat : Str} (hp : pat ≠ []) :
    ∀ s : Str, occursB pat s = true → (removeFirst pat s).length < s.length := by
  intro s
  induction s with
  | nil =>
    intro h
    cases pat with
    | nil => exact absurd rfl hp
    | cons a as => simp [occursB, leadMatch] at h
  | cons c rest ih =>
    intro h
    by_cases hlead : leadMatch pat (c :: rest) = true
    · rw [removeFirst, if_pos hlead]
      have hle := leadMatch_length hlead
      have hpos : 0 < pat.length := List.length_pos.2 hp
      simp only [List.length_drop]
      omega
    · rw [removeFirst, if_neg hlead]
      simp only [occursB, Bool.or_eq_true] at h
      rcases h with h | h
      · exact absurd h hlead
      · simpa using Nat.succ_lt_succ (ih h)

/-! ## RBAC permission evaluator (src/utils/rbac.js) -/

/-- The universal wildcard permission string `*:*`. -/
def wildAll : Str := ['*', ':', '*']

/-- The characters of `self`. -/
def selfTxt : Str := ['s', 'e', 'l', 'f']

/-- The `:self` suffix pattern. -/
def selfPat : Str := ':' :: selfTxt

/-- A role as `hasPermission` sees it: `role.permissions` may be absent. -/
structure RoleView where
  permissions : Option (List Str)
deriving DecidableEq, Repr

/-- A user as the RBAC middleware sees it (`req.user`): `userId` and the
populated `role` may each be absent. -/
structure UserView where
  userId : Option Str
  role : Option RoleView
deriving DecidableEq, Repr

/-- `perms && perms.includes(p)`: false when the permission list is absent. -/
def includesP (perms : Option (List Str)) (p : Str) : Bool :=
  match perms with
  | none => false
  | some l => decide (p ∈ l)

/-- `required.split(':')[0]`: the characters before the first `:`. -/
def splitHead (r : Str) : Str := r.takeWhile (fun c => ¬ c = ':')

/-- `required.endsWith(':self')`. -/
def endsWithSelf (r : Str) : Bool := leadMatch selfPat.reverse r.reverse

theorem endsWithSelf_iff (r : Str) : endsWithSelf r = true ↔ ∃ t, r = t ++ selfPat := by
  rw [endsWithSelf, leadMatch_iff]
  constructor
  · rintro ⟨t, ht⟩
    refine ⟨t.reverse, ?_⟩
    have := congrArg List.reverse ht
    simpa using this
  · rintro ⟨t, rfl⟩
    exact ⟨t.reverse, by simp⟩

theorem removeFirst_length_lt_of_self {r : Str} (h : endsWithSelf r = true) :
    (removeFirst selfPat r).length < r.length := by
  refine removeFirst_length_lt (by simp [selfPat]) r ?_
  exact occursB_of_suffix (by simp [selfPat]) ((endsWithSelf_iff r).1 h)

/-- Fuel-indexed body of `RBAC.hasPermission` for a string `required` and a
present user/role (the part of the source after the null checks).  The JS
recursion `hasPermission(user, basePermission)` re-runs this whole body, and
strictly shortens `required`, so fuel `required.length + 1` always suffices
(`hasPermStr_eq` below gives the fuel-free unfolding). -/
def hasPermFuel (perms : Option (List Str)) : Nat → Str → Bool
  | 0, _ => false
  | fuel + 1, r =>
    if includesP perms wildAll then true
    else if includesP perms r then true
    else if includesP perms (splitHead r ++ [':', '*']) then true
    else if endsWithSelf r then hasPermFuel perms fuel (removeFirst selfPat r)
    else false

/-- `RBAC.hasPermission` restricted to a present user/role and a string
`required` (no JS errors are reachable there). -/
def hasPermStr (perms : Option (List Str)) (r : Str) : Bool :=
  hasPermFuel perms (r.length + 1) r

theorem hasPermFuel_congr (perms : Option (List Str)) :
    ∀ n m r, r.length < n → r.length < m →
      hasPermFuel perms n r = hasPermFuel perms m r := by
  intro n
  induction n with
  | zero => intro m r h; omega
  | succ n ih =>
    intro m r hn hm
    cases m with
    | zero => omega
    | succ m =>
      simp only [hasPermFuel]
      by_cases h1 : includesP perms wildAll = true
      · simp [h1]
      · by_cases h2 : includesP perms r = true
        · simp [h1, h2]
        · by_cases h3 : includesP perms (splitHead r ++ [':', '*']) = true
          · simp [h1, h2, h3]
          · by_cases h4 : endsWithSelf r = true
            · simp only [h1, h2, h3, h4, if_false, if_true, Bool.false_eq_true]
              have hlt := removeFirst_length_lt_of_self h4
              exact ih m (removeFirst selfPat r) (by omega) (by omega)
            · simp [h1, h2, h3, h4]

/-- Fuel-free unfolding of `hasPermStr`, matching the source line by line. -/
theorem hasPermStr_eq (perms : Option (List Str)) (r : Str) :
    hasPermStr perms r =
      (if includesP perms wildAll then true
       else if includesP perms r then true
       else if includesP perms (splitHead r ++ [':', '*']) then true
       else if endsWithSelf r then hasPermStr perms (removeFirst selfPat r)
       else false) := by
  rw [hasPermStr, hasPermFuel]
  by_cases h4 : endsWithSelf r = true
  · have hlt := removeFirst_length_lt_of_self h4
    rw [hasPermFuel_congr perms (r.length) ((removeFirst selfPat r).length + 1)
      (removeFirst selfPat r) (by omega) (by omega)]
    rfl
  · simp [h4]

/-- `RBAC.hasPermission(user, requiredPermission)`.  The user, its role, the
role's permission list, and `requiredPermission` itself may each be absent
(`requiredPermission = none` also models any non-string value).  With a
present user and role, JS evaluates `requiredPermission.split(':')` after the
`*:*` membership check, so a non-string `required` raises a `TypeError`
unless the role holds `*:*`. -/
def hasPermission (user : Option UserView) (required : Option Str) :
    Except JSErr Bool :=
  match user with
  | none => .ok false
  | some u =>
    match u.role with
    | none => .ok false
    | some role =>
      match required with
      | some r => .ok (hasPermStr role.permissions r)
      | none =>
        if includesP role.permissions wildAll then .ok true
        else .error .typeError

/-- JS string concatenation `requiredPermission + ':self'`; an undefined
`requiredPermission` coerces to the string `undefined`. -/
def jsConcatSelf (required : Option Str) : Str :=
  (match required with
   | some r => r
   | none => toStr "undefined") ++ selfPat

/-- `RBAC.canAccessResource(user, resourceUserId, requiredPermission)`.
Reading `user.userId` on an absent user raises; `resourceUserId.toString()`
raises when `resourceUserId` is absent, but only if `user.userId` is truthy
(`&&` short-circuits first).  A present but empty `userId` string is falsy. -/
def canAccessResource (user : Option UserView) (resourceUserId : Option Str)
    (required : Option Str) : Except JSErr Bool :=
  match user with
  | none => .error .typeError
  | some u =>
    match u.userId with
    | some uid =>
      if uid ≠ [] then
        match resourceUserId with
        | none => .error .typeError
        | some rid =>
          if uid = rid then hasPermission user (some (jsConcatSelf required))
          else hasPermission user required
      else hasPermission user required
    | none => hasPermission user required

/-! ### String lemmas for the permission algorithm -/

theorem splitHead_of_no_colon {r : Str} (h : ':' ∉ r) : splitHead r = r := by
  induction r with
  | nil => rfl
  | cons c cs ih =>
    simp only [List.mem_cons, not_or] at h
    simp only [splitHead, List.takeWhile_cons]
    rw [decide_eq_true (by exact fun hc => h.1 hc.symm)]
    simpa [splitHead] using ih h.2

theorem splitHead_append {r : Str} (h : ':' ∉ r) (t : Str) :
    splitHead (r ++ ':' :: t) = r := by
  induction r with
  | nil => simp [splitHead, List.takeWhile_cons]
  | cons c cs ih =>
    simp only [List.mem_cons, not_or] at h
    simp only [List.cons_append, splitHead, List.takeWhile_cons]
    rw [decide_eq_true (by exact fun hc => h.1 hc.symm)]
    simpa [splitHead] using ih h.2

theorem leadMatch_selfPat_cons {c : Char} (h : ¬ c = ':') (x : Str) :
    leadMatch selfPat (c :: x) = false := by
  simp only [selfPat, leadMatch]
  rw [if_neg (fun hc => h hc.symm)]

theorem leadMatch_no_colon_append {p : Str} (hp : ':' ∉ p) :
    ∀ s t : Str, ':' ∉ s → leadMatch p s = false → leadMatch p (s ++ ':' :: t) = false := by
  induction p with
  | nil => intro s t _ h; simp [leadMatch] at h
  | cons x p' ih =>
    intro s t hs h
    simp only [List.mem_cons, not_or] at hp
    cases s with
    | nil =>
      simp only [List.nil_append, leadMatch]
      rw [if_neg (fun hc => hp.1 hc.symm)]
    | cons y s' =>
      simp only [List.mem_cons, not_or] at hs
      simp only [List.cons_append, leadMatch] at h ⊢
      by_cases hxy : x = y
      · rw [if_pos hxy] at h ⊢
        exact ih hp.2 s' t hs.2 h
      · rw [if_neg hxy]

theorem removeFirst_append_selfPat {a : Str} (h : ':' ∉ a) :
    removeFirst selfPat (a ++ selfPat) = a := by
  induction a with
  | nil => decide
  | cons c cs ih =>
    simp only [List.mem_cons, not_or] at h
    simp only [List.cons_append, removeFirst]
    rw [leadMatch_selfPat_cons (fun hc => h.1 hc.symm), if_neg (by simp)]
    exact congrArg (c :: ·) (ih h.2)

theorem colon_split_unique :
    ∀ x x' y y' : Str, ':' ∉ x → ':' ∉ x' → x ++ ':' :: y = x' ++ ':' :: y' →
      x = x' ∧ y = y' := by
  intro x
  induction x with
  | nil =>
    intro x' y y' _ hx' heq
    cases x' with
    | nil => simpa using heq
    | cons c cs =>
      simp only [List.nil_append, List.cons_append, List.cons.injEq] at heq
      exact absurd (heq.1 ▸ List.mem_cons_self c cs) hx'
  | cons c cs ih =>
    intro x' y y' hx hx' heq
    simp only [List.mem_cons, not_or] at hx
    cases x' with
    | nil =>
      simp only [List.cons_append, List.nil_append, List.cons.injEq] at heq
      exact absurd heq.1 (fun hc => hx.1 hc.symm)
    | cons d ds =>
      simp only [List.mem_cons, not_or] at hx'
      simp only [List.cons_append, List.cons.injEq] at heq
      obtain ⟨rfl, heq2⟩ := heq
      obtain ⟨h1, h2⟩ := ih ds y y' hx.2 hx'.2 heq2
      exact ⟨by rw [h1], h2⟩

theorem removeFirst_strip {r a : Str} (hr : ':' ∉ r) (ha : ':' ∉ a)
    (hself : a = selfTxt ∨ leadMatch selfTxt a = false) :
    removeFirst selfPat (r ++ ':' :: (a ++ selfPat)) = r ++ ':' :: a := by
  induction r with
  | nil =>
    rcases hself with rfl | hlm
    · decide
    · simp only [List.nil_append, removeFirst]
      have hlead : leadMatch selfPat (':' :: (a ++ selfPat)) = false := by
        simp only [selfPat, leadMatch, if_pos rfl]
        exact leadMatch_no_colon_append (by decide) a selfTxt ha hlm
      rw [hlead, if_neg (by simp)]
      rw [removeFirst_append_selfPat ha]
  | cons c cs ih =>
    simp only [List.mem_cons, not_or] at hr
    simp only [List.cons_append, removeFirst]
    rw [leadMatch_selfPat_cons (fun hc => hr.1 hc.symm), if_neg (by simp)]
    exact congrArg (c :: ·) (ih hr.2)

theorem endsWithSelf_append (x : Str) : endsWithSelf (x ++ selfPat) = true :=
  (endsWithSelf_iff (x ++ selfPat)).2 ⟨x, rfl⟩

theorem endsWithSelf_no_colon {r : Str} (h : ':' ∉ r) : endsWithSelf r = false := by
  by_contra hne
  have : endsWithSelf r = true := by
    cases hend : endsWithSelf r
    · exact absurd hend hne
    · rfl
  obtain ⟨t, rfl⟩ := (endsWithSelf_iff r).1 this
  exact h (by simp [selfPat])

theorem endsWithSelf_colon_tail {r a : Str} (ha : ':' ∉ a)
    (h : endsWithSelf (r ++ ':' :: a) = true) : a = selfTxt := by
  obtain ⟨t, ht⟩ := (endsWithSelf_iff _).1 h
  have hrev := congrArg List.reverse ht
  simp only [List.reverse_append, List.reverse_cons, selfPat] at hrev
  have hrev' : a.reverse ++ ':' :: r.reverse = selfTxt.reverse ++ ':' :: t.reverse := by
    simpa [List.append_assoc] using hrev
  have := colon_split_unique a.reverse selfTxt.reverse r.reverse t.reverse
    (by simpa using ha) (by decide) hrev'
  have : a.reverse = selfTxt.reverse := this.1
  simpa using congrArg List.reverse this

/-! ### Claim C1: the hasPermission short-circuit algorithm -/

/-- A present user whose populated role carries the given permission list. -/
def mkUser (uid : Option Str) (perms : List Str) : Option UserView :=
  some ⟨uid, some ⟨some perms⟩⟩

theorem hasPermission_mkUser (uid : Option Str) (perms : List Str) (r : Str) :
    hasPermission (mkUser uid perms) (some r) = .ok (hasPermStr (some perms) r) := rfl

theorem includesP_some (l : List Str) (p : Str) :
    includesP (some l) p = decide (p ∈ l) := rfl

theorem includesP_singleton_false {p q : Str} (h : p.length ≠ q.length) :
    includesP (some [q]) p = false := by
  simp only [includesP_some, decide_eq_false_iff_not, List.mem_singleton]
  exact fun heq => h (heq ▸ rfl)

theorem hasPermStr_wild {perms : Option (List Str)} (r : Str)
    (h : includesP perms wildAll = true) : hasPermStr perms r = true := by
  rw [hasPermStr_eq]; simp [h]

theorem hasPermStr_exact {perms : Option (List Str)} {r : Str}
    (h : includesP perms r = true) : hasPermStr perms r = true := by
  rw [hasPermStr_eq]; simp [h]

theorem hasPermStr_rwild {perms : Option (List Str)} {r : Str}
    (h : includesP perms (splitHead r ++ [':', '*']) = true) :
    hasPermStr perms r = true := by
  rw [hasPermStr_eq]; simp [h]


theorem hasPermStr_selfStep {perms : Option (List Str)} {r : Str}
    (he : endsWithSelf r = true)
    (h : hasPermStr perms (removeFirst selfPat r) = true) :
    hasPermStr perms r = true := by
  rw [hasPermStr_eq]
  by_cases h1 : includesP perms wildAll = true
  · simp [h1]
  by_cases h2 : includesP perms r = true
  · simp [h1, h2]
  by_cases h3 : includesP perms (splitHead r ++ [':', '*']) = true
  · simp [h1, h2, h3]
  simp [h1, h2, h3, he, h]

theorem hasPermStr_of_checks {perms : Option (List Str)} {r : Str}
    (h1 : includesP perms wildAll = false)
    (h2 : includesP perms r = false)
    (h3 : includesP perms (splitHead r ++ [':', '*']) = false) :
    hasPermStr perms r =
      (if endsWithSelf r then hasPermStr perms (removeFirst selfPat r)
       else false) := by
  rw [hasPermStr_eq]
  simp only [h1, h2, h3, Bool.false_eq_true, if_false]

theorem removeFirst_full_strip {r a : Str} (hr : ':' ∉ r) (ha : ':' ∉ a)
    (hpro : a = selfTxt ∨ leadMatch selfTxt a = false) :
    removeFirst selfPat ((r ++ ':' :: a) ++ selfPat) = r ++ ':' :: a := by
  rw [List.append_assoc, List.cons_append]
  exact removeFirst_strip hr ha hpro

theorem hasPermStr_only_self_denies {r a : Str} (hr : ':' ∉ r) (ha : ':' ∉ a) :
    hasPermStr (some [(r ++ ':' :: a) ++ selfPat]) (r ++ ':' :: a) = false := by
  have hlenSelf : selfPat.length = 5 := by decide
  have h1 : includesP (some [(r ++ ':' :: a) ++ selfPat]) wildAll = false :=
    includesP_singleton_false (by
      simp only [wildAll, List.length_append, List.length_cons, hlenSelf]
      simp)
  have h2 : includesP (some [(r ++ ':' :: a) ++ selfPat]) (r ++ ':' :: a) = false :=
    includesP_singleton_false (by
      simp only [List.length_append, hlenSelf]; omega)
  have h3 : includesP (some [(r ++ ':' :: a) ++ selfPat])
      (splitHead (r ++ ':' :: a) ++ [':', '*']) = false := by
    rw [splitHead_append hr]
    exact includesP_singleton_false (by
      simp only [List.length_append, List.length_cons, List.length_nil, hlenSelf]
      omega)
  rw [hasPermStr_of_checks h1 h2 h3]
  cases h4 : endsWithSelf (r ++ ':' :: a) with
  | false => simp
  | true =>
    have ha' := endsWithSelf_colon_tail ha h4
    subst ha'
    simp only [if_true]
    have hrm : removeFirst selfPat (r ++ ':' :: selfTxt) = r := by
      have hpat : r ++ ':' :: selfTxt = r ++ selfPat := rfl
      rw [hpat]
      exact removeFirst_append_selfPat hr
    rw [hrm]
    have d1 : includesP (some [(r ++ ':' :: selfTxt) ++ selfPat]) wildAll = false :=
      includesP_singleton_false (by
        simp only [wildAll, List.length_append, List.length_cons, hlenSelf]
        simp [selfTxt])
    have d2 : includesP (some [(r ++ ':' :: selfTxt) ++ selfPat]) r = false :=
      includesP_singleton_false (by
        simp only [List.length_append, List.length_cons, hlenSelf]
        simp [selfTxt]
        try omega)
    have d3 : includesP (some [(r ++ ':' :: selfTxt) ++ selfPat])
        (splitHead r ++ [':', '*']) = false := by
      rw [splitHead_of_no_colon hr]
      exact includesP_singleton_false (by
        simp only [List.length_append, List.length_cons, List.length_nil, hlenSelf]
        simp [selfTxt]
        try omega)
    rw [hasPermStr_of_checks d1 d2 d3, endsWithSelf_no_colon hr]
    simp


/-- C1 (corrected).  `hasPermission` follows the spec's short-circuit
algorithm: `*:*` grants everything, an exact match grants, `resource:*`
grants `resource:action` and `resource:action:self`, a required permission
ending in `:self` is granted whenever the stripped base permission is
granted, and a set containing only `r:a:self` does not grant `r:a` — with
the proviso (forced by `C1_counterexample`) that in the `:self` step the
action segment must not have `self` as a proper prefix, because the code
strips the FIRST occurrence of `:self` (`replace(':self', '')`), not the
suffix.  Segments are colon-free (`':' ∉ r`). -/
theorem C1_hasPermission_shortCircuit :
    (∀ (uid : Option Str) (perms : List Str) (r : Str), wildAll ∈ perms →
        hasPermission (mkUser uid perms) (some r) = .ok true)
  ∧ (∀ (uid : Option Str) (perms : List Str) (p : Str), p ∈ perms →
        hasPermission (mkUser uid perms) (some p) = .ok true)
  ∧ (∀ (uid : Option Str) (perms : List Str) (r a : Str), ':' ∉ r →
        (r ++ [':', '*']) ∈ perms →
        hasPermission (mkUser uid perms) (some (r ++ ':' :: a)) = .ok true ∧
        hasPermission (mkUser uid perms) (some ((r ++ ':' :: a) ++ selfPat)) = .ok true)
  ∧ (∀ (uid : Option Str) (perms : List Str) (r a : Str), ':' ∉ r → ':' ∉ a →
        (a = selfTxt ∨ leadMatch selfTxt a = false) →
        hasPermission (mkUser uid perms) (some (r ++ ':' :: a)) = .ok true →
        hasPermission (mkUser uid perms) (some ((r ++ ':' :: a) ++ selfPat)) = .ok true)
  ∧ (∀ (uid : Option Str) (r a : Str), ':' ∉ r → ':' ∉ a →
        hasPermission (mkUser uid [(r ++ ':' :: a) ++ selfPat])
          (some (r ++ ':' :: a)) = .ok false) := by
  refine ⟨?_, ?_, ?_, ?_, ?_⟩
  · intro uid perms r h
    rw [hasPermission_mkUser, hasPermStr_wild r (by simp [includesP_some, h])]
  · intro uid perms p h
    rw [hasPermission_mkUser, hasPermStr_exact (by simp [includesP_some, h])]
  · intro uid perms r a hr h
    constructor
    · rw [hasPermission_mkUser, hasPermStr_rwild
        (by rw [splitHead_append hr]; simp [includesP_some, h])]
    · rw [hasPermission_mkUser, hasPermStr_rwild ?hsp]
      case hsp =>
        rw [List.append_assoc, List.cons_append, splitHead_append hr]
        simp [includesP_some, h]
  · intro uid perms r a hr ha hpro hbase
    rw [hasPermission_mkUser] at hbase ⊢
    have hbase' : hasPermStr (some perms) (r ++ ':' :: a) = true := by
      simpa using hbase
    have hgoal : hasPermStr (some perms) ((r ++ ':' :: a) ++ selfPat) = true := by
      apply hasPermStr_selfStep (endsWithSelf_append _)
      rw [removeFirst_full_strip hr ha hpro]
      exact hbase'
    rw [hgoal]
  · intro uid r a hr ha
    rw [hasPermission_mkUser, hasPermStr_only_self_denies hr ha]

/-- C1 counterexample: with the role's permission set `{ "u:selfie" }`, the
base permission `u:selfie` is granted, yet the self-scoped form
`u:selfie:self` is denied — the code's `replace(':self', '')` turns
`u:selfie:self` into `uie:self` (first occurrence stripped, not the
suffix), so the claim's unconditional ":self is granted whenever the
suffix-stripped base is granted" step is false on the code. -/
theorem C1_counterexample :
    hasPermission (mkUser (some (toStr "id1")) [toStr "u:selfie"])
        (some (toStr "u:selfie")) = .ok true
  ∧ toStr "u:selfie:self" = toStr "u:selfie" ++ selfPat
  ∧ hasPermission (mkUser (some (toStr "id1")) [toStr "u:selfie"])
        (some (toStr "u:selfie:self")) = .ok false := by
  refine ⟨by decide, by decide, by decide⟩

/-- Witness for C1 at concrete inputs. -/
theorem C1_witness :
    hasPermission (mkUser (some (toStr "i")) [wildAll]) (some (toStr "x:y")) = .ok true
  ∧ hasPermission (mkUser none [toStr "user:read"]) (some (toStr "user:read")) = .ok true
  ∧ hasPermission (mkUser none [toStr "user:*"])
      (some (toStr "user" ++ ':' :: toStr "read")) = .ok true
  ∧ hasPermission (mkUser none [toStr "user:*"])
      (some ((toStr "user" ++ ':' :: toStr "read") ++ selfPat)) = .ok true
  ∧ hasPermission (mkUser none [toStr "user:read"])
      (some ((toStr "user" ++ ':' :: toStr "read") ++ selfPat)) = .ok true
  ∧ hasPermission (mkUser none [(toStr "user" ++ ':' :: toStr "read") ++ selfPat])
      (some (toStr "user" ++ ':' :: toStr "read")) = .ok false := by
  refine ⟨C1_hasPermission_shortCircuit.1 _ _ _ (by decide),
    C1_hasPermission_shortCircuit.2.1 _ _ _ (by decide),
    (C1_hasPermission_shortCircuit.2.2.1 none [toStr "user:*"] (toStr "user")
      (toStr "read") (by decide) (by decide)).1,
    (C1_hasPermission_shortCircuit.2.2.1 none [toStr "user:*"] (toStr "user")
      (toStr "read") (by decide) (by decide)).2,
    C1_hasPermission_shortCircuit.2.2.2.1 none [toStr "user:read"] (toStr "user")
      (toStr "read") (by decide) (by decide) (Or.inr (by decide)) (by decide),
    C1_hasPermission_shortCircuit.2.2.2.2 none (toStr "user") (toStr "read")
      (by decide) (by decide)⟩

/-! ### Claim C2: canAccessResource ownership composition -/

/-- C2 (confirmed).  For a principal with a (nonempty) id,
`canAccessResource` checks `required + ":self"` exactly when the principal's
id equals the resource owner's id by exact string equality, and the unscoped
`required` otherwise; hence a non-owner whose permission set contains only
`r:a:self` is always denied, while an owner holding only `r:a:self` is
admitted without the unscoped permission. -/
theorem C2_canAccessResource_ownership :
    (∀ (u : UserView) (uid ownerId required : Str),
        u.userId = some uid → uid ≠ [] →
        canAccessResource (some u) (some ownerId) (some required) =
          (if uid = ownerId
           then hasPermission (some u) (some (required ++ selfPat))
           else hasPermission (some u) (some required)))
  ∧ (∀ (uid ownerId r a : Str), uid ≠ [] → uid ≠ ownerId → ':' ∉ r → ':' ∉ a →
        canAccessResource (mkUser (some uid) [(r ++ ':' :: a) ++ selfPat])
          (some ownerId) (some (r ++ ':' :: a)) = .ok false)
  ∧ (∀ (uid r a : Str), uid ≠ [] →
        canAccessResource (mkUser (some uid) [(r ++ ':' :: a) ++ selfPat])
          (some uid) (some (r ++ ':' :: a)) = .ok true) := by
  refine ⟨?_, ?_, ?_⟩
  · intro u uid ownerId required h hne
    obtain ⟨uu, ur⟩ := u
    simp only at h
    subst h
    simp only [canAccessResource, if_pos hne, jsConcatSelf]
  · intro uid ownerId r a hne hno hr ha
    have hbase : hasPermission (mkUser (some uid) [(r ++ ':' :: a) ++ selfPat])
        (some (r ++ ':' :: a)) = .ok false := by
      rw [hasPermission_mkUser, hasPermStr_only_self_denies hr ha]
    simp only [mkUser, canAccessResource, if_pos hne, if_neg hno]
    exact hbase
  · intro uid r a hne
    have hok : hasPermission (mkUser (some uid) [(r ++ ':' :: a) ++ selfPat])
        (some ((r ++ ':' :: a) ++ selfPat)) = .ok true := by
      rw [hasPermission_mkUser, hasPermStr_exact (by simp [includesP_some])]
    simp only [mkUser, canAccessResource, if_pos hne, if_pos rfl, jsConcatSelf, if_true]
    exact hok

/-- Witness for C2 at concrete inputs. -/
theorem C2_witness :
    canAccessResource (mkUser (some (toStr "alice")) [toStr "user:read:self"])
        (some (toStr "alice")) (some (toStr "user:read")) =
      hasPermission (mkUser (some (toStr "alice")) [toStr "user:read:self"])
        (some (toStr "user:read" ++ selfPat))
  ∧ canAccessResource (mkUser (some (toStr "alice"))
        [(toStr "user" ++ ':' :: toStr "read") ++ selfPat])
      (some (toStr "bob")) (some (toStr "user" ++ ':' :: toStr "read")) = .ok false
  ∧ canAccessResource (mkUser (some (toStr "alice"))
        [(toStr "user" ++ ':' :: toStr "read") ++ selfPat])
      (some (toStr "alice")) (some (toStr "user" ++ ':' :: toStr "read")) = .ok true := by
  refine ⟨?_, ?_, ?_⟩
  · have h := C2_canAccessResource_ownership.1
      ⟨some (toStr "alice"), some ⟨some [toStr "user:read:self"]⟩⟩
      (toStr "alice") (toStr "alice") (toStr "user:read") rfl (by decide)
    simpa using h
  · exact C2_canAccessResource_ownership.2.1 (toStr "alice") (toStr "bob")
      (toStr "user") (toStr "read") (by decide) (by decide) (by decide) (by decide)
  · exact C2_canAccessResource_ownership.2.2 (toStr "alice")
      (toStr "user") (toStr "read") (by decide)

/-! ### Claim C10: totality of the permission evaluator -/

/-- C10 (corrected).  `hasPermission` returns `false` without error for an
absent user or absent role (and an absent permission list only makes the
membership checks fail), and the evaluator is pure; but the claimed total
error-freedom fails: with a present user and role, an absent/non-string
`required` reaches `required.split(':')` and raises a `TypeError` unless
the role holds `*:*`, and `canAccessResource` raises a `TypeError` for an
absent user, or for an absent resource-owner id whenever the principal's
id is present (truthy). -/
theorem C10_evaluator_totality :
    (∀ required, hasPermission none required = .ok false)
  ∧ (∀ (uid : Option Str) required,
        hasPermission (some ⟨uid, none⟩) required = .ok false)
  ∧ (∀ (uid : Option Str) (role : RoleView),
        hasPermission (some ⟨uid, some role⟩) none =
          (if includesP role.permissions wildAll then .ok true
           else .error .typeError))
  ∧ (∀ ownerId required, canAccessResource none ownerId required = .error .typeError)
  ∧ (∀ (uid : Str) (role : Option RoleView) required, uid ≠ [] →
        canAccessResource (some ⟨some uid, role⟩) none required = .error .typeError) := by
  refine ⟨fun _ => rfl, fun _ _ => rfl, fun _ _ => rfl, fun _ _ => rfl, ?_⟩
  intro uid role required hne
  simp only [canAccessResource, if_pos hne]

/-- C10 counterexample: the claim "absent/malformed inputs simply evaluate
to `false`" is false on the code — with a present user and role (and no
`*:*`), an absent required permission makes `hasPermission` raise a
`TypeError` at `requiredPermission.split(':')`, and an absent resource-owner
id makes `canAccessResource` raise at `resourceUserId.toString()`. -/
theorem C10_counterexample :
    hasPermission (mkUser (some (toStr "u1")) []) none = .error .typeError
  ∧ canAccessResource (mkUser (some (toStr "u1")) []) none
      (some (toStr "user:read")) = .error .typeError := by
  refine ⟨by decide, by decide⟩

/-- Witness for C10 at concrete inputs. -/
theorem C10_witness :
    canAccessResource (some ⟨some (toStr "u1"), some ⟨some [toStr "a:b"]⟩⟩) none
      (some (toStr "a:b")) = .error .typeError :=
  C10_evaluator_totality.2.2.2.2 (toStr "u1") (some ⟨some [toStr "a:b"]⟩)
    (some (toStr "a:b")) (by decide)

/-! ## Credential issuer (src/utils/jwt.js)

A signed token is modelled as the signing secret, the payload and the
expiry instant; `jwt.verify` succeeds exactly when the secret matches and
the token is not expired.  Time is a `Nat` (milliseconds). -/

/-- A JWT payload as produced by this code base: access tokens carry
`userId`, `email`, `roleId`, `permissions`; refresh tokens only `userId`;
password-reset tokens `userId` and `type := "password-reset"`. -/
structure JwtPayload where
  userId : Str
  email : Option Str
  roleId : Option Str
  permissions : Option (List Str)
  tokenType : Option Str
deriving DecidableEq, Repr

/-- A signed stateless token. -/
structure Token where
  payload : JwtPayload
  secret : Str
  exp : Nat
deriving DecidableEq, Repr

/-- The `type` tag of password-reset tokens. -/
def passwordResetType : Str := toStr "password-reset"

/-- `jwt.verify(token, secret)` at time `now`: signature + expiry check. -/
def jwtVerify (tok : Token) (secret : Str) (now : Nat) : Except JSErr JwtPayload :=
  if tok.secret = secret ∧ now < tok.exp then .ok tok.payload
  else .error (.error "jwt verification failed")

/-- `generateAccessToken(user)`: payload `{userId, email, roleId,
permissions}`, signed with the access secret, short TTL. -/
def generateAccessToken (userId email roleId : Str) (permissions : List Str)
    (accessSecret : Str) (now ttl : Nat) : Token :=
  { payload := { userId := userId, email := some email, roleId := some roleId,
                 permissions := some permissions, tokenType := none },
    secret := accessSecret, exp := now + ttl }

/-- `generateRefreshToken(user)`: payload `{userId}` only, signed with the
distinct refresh secret, long TTL. -/
def generateRefreshToken (userId : Str) (refreshSecret : Str) (now ttl : Nat) :
    Token :=
  { payload := { userId := userId, email := none, roleId := none,
                 permissions := none, tokenType := none },
    secret := refreshSecret, exp := now + ttl }

/-- One hour in milliseconds (`expiresIn: '1h'` / `Date.now() + 3600000`). -/
def hourMs : Nat := 3600000

/-- `generatePasswordResetToken(user)`: payload `{userId,
type: 'password-reset'}`, signed with the ACCESS secret, 1 hour TTL. -/
def generatePasswordResetToken (userId : Str) (accessSecret : Str) (now : Nat) :
    Token :=
  { payload := { userId := userId, email := none, roleId := none,
                 permissions := none, tokenType := some passwordResetType },
    secret := accessSecret, exp := now + hourMs }

/-- `verifyAccessToken(token)`: `jwt.verify` against the access secret; any
failure is rethrown as one undifferentiated error.  NOTE (C3): there is no
`type` check here. -/
def verifyAccessToken (tok : Token) (accessSecret : Str) (now : Nat) :
    Except JSErr JwtPayload :=
  match jwtVerify tok accessSecret now with
  | .ok p => .ok p
  | .error _ => .error (.error "Invalid or expired access token")

/-- `verifyRefreshToken(token)`: `jwt.verify` against the refresh secret. -/
def verifyRefreshToken (tok : Token) (refreshSecret : Str) (now : Nat) :
    Except JSErr JwtPayload :=
  match jwtVerify tok refreshSecret now with
  | .ok p => .ok p
  | .error _ => .error (.error "Invalid or expired refresh token")

/-- `verifyPasswordResetToken(token)`: `jwt.verify` against the access
secret, then reject when `decoded.type !== 'password-reset'`; the inner
throw is caught and rethrown, so every failure carries the same message. -/
def verifyPasswordResetToken (tok : Token) (accessSecret : Str) (now : Nat) :
    Except JSErr JwtPayload :=
  match jwtVerify tok accessSecret now with
  | .ok d =>
    if d.tokenType ≠ some passwordResetType then
      .error (.error "Invalid or expired password reset token")
    else .ok d
  | .error _ => .error (.error "Invalid or expired password reset token")

/-! ### Claim C3: token purpose separation -/

/-- C3 (corrected).  Purpose separation holds in one direction only: an
access token presented to `verifyPasswordResetToken` is always rejected
(its `type` tag is absent, hence not `"password-reset"`), even when its
signature and expiry are valid; but a password-reset token presented to
`verifyAccessToken` within its lifetime VERIFIES SUCCESSFULLY, because
reset tokens are signed with the access secret and `verifyAccessToken`
performs no `type` check. -/
theorem C3_token_purpose :
    (∀ (userId email roleId : Str) (permissions : List Str)
        (secret : Str) (now ttl now2 : Nat),
        verifyPasswordResetToken
          (generateAccessToken userId email roleId permissions secret now ttl)
          secret now2 =
          .error (.error "Invalid or expired password reset token"))
  ∧ (∀ (userId secret : Str) (now now2 : Nat), now2 < now + hourMs →
        verifyAccessToken (generatePasswordResetToken userId secret now)
          secret now2 =
          .ok { userId := userId, email := none, roleId := none,
                permissions := none, tokenType := some passwordResetType }) := by
  constructor
  · intro userId email roleId permissions secret now ttl now2
    by_cases h : now2 < now + ttl
    · simp [verifyPasswordResetToken, jwtVerify, generateAccessToken, h,
        passwordResetType]
    · simp [verifyPasswordResetToken, jwtVerify, generateAccessToken, h]
  · intro userId secret now now2 h
    simp [verifyAccessToken, jwtVerify, generatePasswordResetToken, h]

/-- C3 counterexample: a freshly minted password-reset token, presented to
access-token verification one millisecond later, is ACCEPTED (the claim
says it must fail with a purpose mismatch). -/
theorem C3_counterexample :
    verifyAccessToken (generatePasswordResetToken (toStr "u1") (toStr "s") 0)
      (toStr "s") 1 =
    .ok { userId := toStr "u1", email := none, roleId := none,
          permissions := none, tokenType := some passwordResetType } := by
  decide

/-- Witness for C3 at concrete inputs. -/
theorem C3_witness :
    verifyPasswordResetToken
      (generateAccessToken (toStr "u1") (toStr "e") (toStr "r") [] (toStr "s") 0 900000)
      (toStr "s") 1 = .error (.error "Invalid or expired password reset token")
  ∧ verifyAccessToken (generatePasswordResetToken (toStr "u2") (toStr "s") 5)
      (toStr "s") 6 =
      .ok { userId := toStr "u2", email := none, roleId := none,
            permissions := none, tokenType := some passwordResetType } :=
  ⟨C3_token_purpose.1 (toStr "u1") (toStr "e") (toStr "r") [] (toStr "s") 0 900000 1,
   C3_token_purpose.2 (toStr "u2") (toStr "s") 5 6 (by decide)⟩

/-! ## JSON values and the audit interceptor (src/middleware/audit.js) -/

/-- A JSON-ish JavaScript value (objects as key/value association lists;
JS object keys are unique). -/
inductive JVal where
  | null
  | bool (b : Bool)
  | num (n : Int)
  | str (s : Str)
  | obj (fields : List (Str × JVal))

/-- JS truthiness. -/
def truthy : JVal → Bool
  | .null => false
  | .bool b => b
  | .num n => decide (n ≠ 0)
  | .str s => decide (s ≠ [])
  | .obj _ => true

/-- Property lookup `v[k]`; `undefined` (`none`) on non-objects. -/
def getField : JVal → Str → Option JVal
  | .obj fs, k => (fs.find? (fun kv => decide (kv.1 = k))).map (fun kv => kv.2)
  | _, _ => none

/-- Truthiness of a possibly-`undefined` value. -/
def truthyO : Option JVal → Bool
  | none => false
  | some v => truthy v

/-- The fields of an object value (nil for non-objects). -/
def objFields : JVal → List (Str × JVal)
  | .obj fs => fs
  | _ => []

/-- `delete v[k]` on an object. -/
def removeKey (v : JVal) (k : Str) : JVal :=
  match v with
  | .obj fs => .obj (fs.filter (fun kv => decide (¬ kv.1 = k)))
  | v => v

/-- `v[k] = nv` on an object that already has key `k`. -/
def setField (v : JVal) (k : Str) (nv : JVal) : JVal :=
  match v with
  | .obj fs => .obj (fs.map (fun kv => if kv.1 = k then (kv.1, nv) else kv))
  | v => v

/-- The sensitive field names stripped by `AuditLogger.sanitizeData`. -/
def sensitiveKeys : List Str := [toStr "password", toStr "token", toStr "secret"]

/-- `AuditLogger.sanitizeData(data)`: non-objects (and `null`) are returned
unchanged; on an object, each sensitive field is deleted — but only when its
value is truthy (`if (sanitized[field]) delete sanitized[field]`). -/
def sanitizeData (d : JVal) : JVal :=
  match d with
  | .obj fs =>
    .obj (fs.filter (fun kv => decide (¬ (kv.1 ∈ sensitiveKeys ∧ truthy kv.2 = true))))
  | v => v

/-- The JSON key `data`. -/
def dataKey : Str := toStr "data"

/-- The JSON key `_id`. -/
def idKey : Str := toStr "_id"

/-- The JSON key `password`. -/
def passwordKey : Str := toStr "password"

/-- The decoded principal attached by the auth middleware (`req.user`). -/
structure ReqUser where
  userId : Option Str
deriving DecidableEq, Repr

/-- The parts of an Express request the audit middleware reads. -/
structure ReqInfo where
  user : Option ReqUser
  paramsId : Option Str
  body : JVal
  ip : Option Str
  userAgent : Option Str

/-- The `options` descriptor of `AuditLogger.auditAction`. -/
structure AuditOptions where
  captureBefore : Bool := false
  captureAfter : Bool := false
  resourceIdExtractor : Option (ReqInfo → Option Str) := none

/-- A persisted audit record (the `logData` handed to `AuditLogger.log`). -/
structure AuditRec where
  userId : Option JVal
  action : Str
  resource : Str
  resourceId : Option Str
  before : JVal
  after : JVal
  ipAddress : Option Str
  userAgent : Option Str

/-- `AuditLogger.extractResourceId`: a caller-supplied extractor wins,
otherwise `req.params.id || null`. -/
def extractResourceId (req : ReqInfo) (opts : AuditOptions) : Option Str :=
  match opts.resourceIdExtractor with
  | some f => f req
  | none => req.paramsId

/-- `AuditLogger.extractAfterData(responseData, options)`.  `responseData`
is `none` when no (truthy) response body was captured; `some none` when
`JSON.parse` threw; `some (some parsed)` otherwise.  Only a truthy
`parsed.data.password` is deleted; then `parsed.data || parsed` is
returned. -/
def extractAfterData (responseData : Option (Option JVal)) (opts : AuditOptions) :
    JVal :=
  match responseData with
  | none => .null
  | some parseRes =>
    if opts.captureAfter then
      match parseRes with
      | none => .null
      | some parsed =>
        let parsed1 :=
          match getField parsed dataKey with
          | some d =>
            if truthy d ∧ truthyO (getField d passwordKey) = true then
              setField parsed dataKey (removeKey d passwordKey)
            else parsed
          | none => parsed
        match getField parsed1 dataKey with
        | some d => if truthy d then d else parsed1
        | none => parsed1
    else .null

/-- `if (parsed.data && parsed.data._id) … else if (parsed._id) …`:
the id a response payload resolves to, when truthy. -/
def respId (parsed : JVal) : Option JVal :=
  match getField parsed dataKey with
  | some d =>
    if truthy d ∧ truthyO (getField d idKey) = true then getField d idKey
    else if truthyO (getField parsed idKey) then getField parsed idKey
    else none
  | none =>
    if truthyO (getField parsed idKey) then getField parsed idKey
    else none

/-- The three-step actor-resolution chain of `AuditLogger.auditAction`
(`req.user` → id in the response payload → `req.user.userId` again for
`CREATE_USER`), each step firing only while the current value is falsy. -/
def auditUserId (action : Str) (req : ReqInfo)
    (responseData : Option (Option JVal)) : Option JVal :=
  let u0 : Option JVal :=
    match req.user with
    | some ru =>
      match ru.userId with
      | some s => some (.str s)
      | none => none
    | none => none
  let u1 : Option JVal :=
    if ¬ truthyO u0 = true ∧ action = toStr "CREATE_USER" ∧ responseData.isSome = true then
      match responseData with
      | some (some parsed) =>
        match respId parsed with
        | some v => some v
        | none => u0
      | _ => u0
    else u0
  let u2 : Option JVal :=
    if ¬ truthyO u1 = true ∧ responseData.isSome = true ∧ ¬ action = toStr "CREATE_USER" then
      match responseData with
      | some (some parsed) =>
        match respId parsed with
        | some v => some v
        | none => u1
      | _ => u1
    else u1
  if ¬ truthyO u2 = true ∧ action = toStr "CREATE_USER" ∧
      (match req.user with
       | some ru =>
         match ru.userId with
         | some s => truthy (.str s)
         | none => false
       | none => false) = true then
    match req.user with
    | some ru =>
      match ru.userId with
      | some s => some (.str s)
      | none => u2
    | none => u2
  else u2

/-- The `res.on('finish')` handler installed by `AuditLogger.auditAction`:
it runs after the wrapped operation has completed, and builds/persists one
audit record only when the final status code is 2xx. -/
def auditFinish (action resource : Str) (opts : AuditOptions) (req : ReqInfo)
    (statusCode : Nat) (responseData : Option (Option JVal)) : Option AuditRec :=
  if 200 ≤ statusCode ∧ statusCode < 300 then
    some { userId := auditUserId action req responseData,
           action := action,
           resource := resource,
           resourceId := extractResourceId req opts,
           before := if opts.captureBefore then sanitizeData req.body else .null,
           after := extractAfterData responseData opts,
           ipAddress := req.ip,
           userAgent := req.userAgent }
  else none

/-! ### Claim C5: audit records only for successful outcomes -/

/-- C5 (confirmed).  The finish handler of the audit interceptor — which
runs only after the wrapped operation has completed and the response status
is final — produces an audit record exactly when the outcome status is
2xx; any non-2xx outcome produces zero audit records. -/
theorem C5_audit_success_gated (action resource : Str) (opts : AuditOptions)
    (req : ReqInfo) (statusCode : Nat) (responseData : Option (Option JVal)) :
    (auditFinish action resource opts req statusCode responseData).isSome = true ↔
      (200 ≤ statusCode ∧ statusCode < 300) := by
  by_cases h : 200 ≤ statusCode ∧ statusCode < 300
  · simp [auditFinish, h]
  · simp [auditFinish, h]

/-! ### Claim C7: secret scrubbing of audit snapshots -/

theorem getField_removeKey (v : JVal) (k : Str) :
    getField (removeKey v k) k = none := by
  cases v with
  | obj fs =>
    have hf : List.find? (fun kv => decide (kv.1 = k))
        (fs.filter (fun kv => decide (¬ kv.1 = k))) = none := by
      rw [List.find?_eq_none]
      intro kv hmem
      simpa using (List.mem_filter.1 hmem).2
    simp [removeKey, getField, hf]
  | null => rfl
  | bool b => rfl
  | num n => rfl
  | str s => rfl

theorem getField_obj {v : JVal} {k : Str} {x : JVal}
    (h : getField v k = some x) : ∃ fs, v = .obj fs := by
  cases v with
  | obj fs => exact ⟨fs, rfl⟩
  | null => simp [getField] at h
  | bool b => simp [getField] at h
  | num n => simp [getField] at h
  | str s => simp [getField] at h

theorem getField_setField (k : Str) (nv : JVal) :
    ∀ fs : List (Str × JVal), (getField (.obj fs) k).isSome = true →
      getField (setField (.obj fs) k nv) k = some nv := by
  intro fs
  induction fs with
  | nil => intro h; simp [getField, List.find?] at h
  | cons hd tl ih =>
    intro h
    by_cases hk : hd.1 = k
    · simp only [setField, List.map_cons, if_pos hk, getField, List.find?,
        decide_eq_true hk]
      simp
    · simp only [getField, List.find?, decide_eq_false hk, Bool.false_eq_true] at h
      have := ih h
      simp only [setField, List.map_cons, if_neg hk, getField, List.find?,
        decide_eq_false hk] at this ⊢
      exact this

/-- C7 (corrected).  The `before` snapshot (taken from `req.body` through
`sanitizeData`) has every sensitive key whose value is truthy removed; but
the `after` snapshot goes through `extractAfterData`, which only deletes a
truthy `parsed.data.password` — `token`/`secret` keys, and any top-level
sensitive key of a payload without a truthy `data` object, are persisted
untouched (see `C7_counterexample`). -/
theorem C7_snapshot_scrubbing :
    (∀ (action resource : Str) (opts : AuditOptions) (req : ReqInfo)
        (statusCode : Nat) (responseData : Option (Option JVal)) (rec : AuditRec),
        auditFinish action resource opts req statusCode responseData = some rec →
        rec.before = (if opts.captureBefore then sanitizeData req.body else .null) ∧
        rec.after = extractAfterData responseData opts)
  ∧ (∀ (fields : List (Str × JVal)) (k : Str) (v : JVal), k ∈ sensitiveKeys →
        (k, v) ∈ objFields (sanitizeData (.obj fields)) → truthy v = false)
  ∧ (∀ (parsed d : JVal), getField parsed dataKey = some d → truthy d = true →
        truthyO (getField d passwordKey) = true →
        extractAfterData (some (some parsed)) { captureAfter := true } =
          removeKey d passwordKey ∧
        getField (removeKey d passwordKey) passwordKey = none) := by
  refine ⟨?_, ?_, ?_⟩
  · intro action resource opts req statusCode responseData rec hrec
    by_cases h : 200 ≤ statusCode ∧ statusCode < 300
    · simp only [auditFinish, if_pos h, Option.some.injEq] at hrec
      subst hrec
      exact ⟨rfl, rfl⟩
    · simp [auditFinish, if_neg h] at hrec
  · intro fields k v hk hmem
    simp only [sanitizeData, objFields] at hmem
    have h2 := (List.mem_filter.1 hmem).2
    simp only [decide_eq_true_eq, not_and] at h2
    have h3 := h2 hk
    simpa using h3
  · intro parsed d hd htr hpw
    have hdobj : ∃ fs, d = .obj fs := by
      cases d with
      | obj fs => exact ⟨fs, rfl⟩
      | null => simp [getField, truthyO] at hpw
      | bool b => simp [getField, truthyO] at hpw
      | num n => simp [getField, truthyO] at hpw
      | str s => simp [getField, truthyO] at hpw
    obtain ⟨fs, rfl⟩ := hdobj
    obtain ⟨pfs, rfl⟩ := getField_obj hd
    have hset : getField (setField (.obj pfs) dataKey (removeKey (.obj fs) passwordKey))
        dataKey = some (removeKey (.obj fs) passwordKey) :=
      getField_setField dataKey _ pfs (by rw [hd]; rfl)
    have htr2 : truthy (removeKey (JVal.obj fs) passwordKey) = true := rfl
    constructor
    · simp only [extractAfterData, hd, htr, hpw, and_self, if_true, if_pos]
      rw [hset]
      simp [htr2]
    · exact getField_removeKey _ _

/-- C7 counterexample: a 2xx response whose payload is
`{"token": "t0"}` (no `data` field) is persisted as the `after` snapshot
with the sensitive key `token` still present and truthy — refuting
"no known-sensitive key of the captured object appears in the stored
record, regardless of the shape of the response payload". -/
theorem C7_counterexample :
    (auditFinish (toStr "UPDATE_USER") (toStr "users")
        { captureBefore := true, captureAfter := true }
        { user := some ⟨some (toStr "admin")⟩, paramsId := some (toStr "42"),
          body := .obj [], ip := none, userAgent := none }
        200 (some (some (.obj [(toStr "token", .str (toStr "t0"))])))).map
      AuditRec.after = some (.obj [(toStr "token", .str (toStr "t0"))])
  ∧ getField (.obj [(toStr "token", .str (toStr "t0"))]) (toStr "token") =
      some (.str (toStr "t0"))
  ∧ truthy (.str (toStr "t0")) = true := by
  exact ⟨rfl, rfl, rfl⟩

/-- Witness for C7 at concrete inputs. -/
theorem C7_witness :
    ((⟨none, toStr "X", toStr "users", none, .null, .null, none, none⟩ :
        AuditRec).before =
      (if ({} : AuditOptions).captureBefore then sanitizeData JVal.null
       else .null) ∧
     (⟨none, toStr "X", toStr "users", none, .null, .null, none, none⟩ :
        AuditRec).after = extractAfterData none {})
  ∧ truthy (.str []) = false
  ∧ (extractAfterData
        (some (some (.obj [(dataKey, .obj [(passwordKey, .str (toStr "p"))])])))
        { captureAfter := true } =
      removeKey (.obj [(passwordKey, .str (toStr "p"))]) passwordKey ∧
     getField (removeKey (.obj [(passwordKey, .str (toStr "p"))]) passwordKey)
        passwordKey = none) := by
  refine ⟨?_, ?_, ?_⟩
  · exact C7_snapshot_scrubbing.1 (toStr "X") (toStr "users") {}
      { user := none, paramsId := none, body := .null, ip := none, userAgent := none }
      204 none ⟨none, toStr "X", toStr "users", none, .null, .null, none, none⟩ rfl
  · exact C7_snapshot_scrubbing.2.1 [(toStr "password", .str [])]
      (toStr "password") (.str []) (List.mem_cons_self _ _)
      (List.mem_singleton.2 rfl)
  · exact C7_snapshot_scrubbing.2.2
      (.obj [(dataKey, .obj [(passwordKey, .str (toStr "p"))])])
      (.obj [(passwordKey, .str (toStr "p"))]) rfl rfl rfl

/-! ## Persistent records and the auth/role services
(src/models/User.js, src/models/Role.js, src/services/authService.js,
src/services/roleService.js)

Collections are lists of records; `user.save()` replaces the document with
the same `_id`.  Password hashing (`bcrypt`) is an abstract function
parameter, and `comparePassword` an abstract comparison parameter. -/

/-- A `Role` document. -/
structure RoleRec where
  id : Str
  name : Str
  permissions : List Str
  description : Str
  isActive : Bool
deriving DecidableEq, Repr

/-- A `User` document (the fields the embedded services read). -/
structure DBUser where
  id : Str
  email : Str
  password : Str
  role : Str
  isActive : Bool
  lastLogin : Option Nat
  resetPasswordToken : Option Token
  resetPasswordExpires : Option Nat
deriving DecidableEq, Repr

/-- `AuditLogger.logAuthEvent(action, req, user, additionalData)`. -/
def logAuthEventRec (action : Str) (req : ReqInfo) (user : Option DBUser)
    (additionalData : JVal) : AuditRec :=
  { userId := user.map (fun u => .str u.id),
    action := action,
    resource := toStr "auth",
    resourceId := user.map (fun u => u.id),
    before := .null,
    after := additionalData,
    ipAddress := req.ip,
    userAgent := req.userAgent }

/-- `AuditLogger.logUserAction(action, resource, resourceId, user, before,
after, req)`: both snapshots pass through `sanitizeData`. -/
def logUserActionRec (action resource resourceId : Str) (user : DBUser)
    (before after : JVal) (req : Option ReqInfo) : AuditRec :=
  { userId := some (.str user.id),
    action := action,
    resource := resource,
    resourceId := some resourceId,
    before := sanitizeData before,
    after := sanitizeData after,
    ipAddress := req.bind ReqInfo.ip,
    userAgent := req.bind ReqInfo.userAgent }

/-- `User.findByEmailWithPassword(email)`. -/
def findByEmailWithPassword (users : List DBUser) (email : Str) : Option DBUser :=
  users.find? (fun u => decide (u.email = email))

/-- The successful result of `AuthService.login`. -/
structure LoginOk where
  userId : Str
  accessToken : Token
  refreshToken : Token
deriving DecidableEq, Repr

/-- `AuthService.login(email, password, req)`.  `cmp` models
`bcrypt.compare(candidate, storedHash)`.  Returns the outcome, the user
collection after `updateLastLogin`, and the audit records emitted. -/
def login (users : List DBUser) (roles : List RoleRec) (cmp : Str → Str → Bool)
    (email password : Str) (accessSecret refreshSecret : Str)
    (accessTTL refreshTTL now : Nat) (req : ReqInfo) :
    Except JSErr LoginOk × List DBUser × List AuditRec :=
  match findByEmailWithPassword users email with
  | none =>
    (.error (.error "Invalid credentials"), users,
     [logAuthEventRec (toStr "FAILED_LOGIN") req none
        (.obj [(toStr "email", .str email)])])
  | some u =>
    if !u.isActive then
      (.error (.error "Account is deactivated"), users,
       [logAuthEventRec (toStr "FAILED_LOGIN") req (some u)
          (.obj [(toStr "reason", .str (toStr "Account deactivated"))])])
    else if !(cmp password u.password) then
      (.error (.error "Invalid credentials"), users,
       [logAuthEventRec (toStr "FAILED_LOGIN") req (some u)
          (.obj [(toStr "email", .str email)])])
    else
      let u' := { u with lastLogin := some now }
      let users' := users.map (fun v => if v.id = u.id then u' else v)
      match roles.find? (fun r => decide (r.id = u.role)) with
      | none => (.error .typeError, users', [])
      | some role =>
        (.ok { userId := u.id,
               accessToken := generateAccessToken u.id u.email role.id
                 role.permissions accessSecret now accessTTL,
               refreshToken := generateRefreshToken u.id refreshSecret now
                 refreshTTL },
         users', [logAuthEventRec (toStr "LOGIN") req (some u) (.obj [])])

/-! ### Claim C6: FailedLogin audit on rejected attempts -/

/-- C6 (corrected).  Every rejected login attempt (unknown email, wrong
password, deactivated account) emits exactly one `FAILED_LOGIN` audit
record and issues zero tokens (the result is an error), and a deactivated
account fails with the account-inactive error; BUT only the unknown-email
record lacks a resolved actor id — for a known email the record carries the
user's id (`logAuthEvent` receives the user), and the deactivated-account
record carries a `reason` instead of the attempted email. -/
theorem C6_failed_login_audit :
    (∀ (users : List DBUser) (roles : List RoleRec) (cmp : Str → Str → Bool)
        (email password as rs : Str) (at' rt now : Nat) (req : ReqInfo),
        findByEmailWithPassword users email = none →
        login users roles cmp email password as rs at' rt now req =
          (.error (.error "Invalid credentials"), users,
           [logAuthEventRec (toStr "FAILED_LOGIN") req none
              (.obj [(toStr "email", .str email)])]))
  ∧ (∀ (users : List DBUser) (roles : List RoleRec) (cmp : Str → Str → Bool)
        (email password as rs : Str) (at' rt now : Nat) (req : ReqInfo)
        (u : DBUser),
        findByEmailWithPassword users email = some u → u.isActive = false →
        login users roles cmp email password as rs at' rt now req =
          (.error (.error "Account is deactivated"), users,
           [logAuthEventRec (toStr "FAILED_LOGIN") req (some u)
              (.obj [(toStr "reason", .str (toStr "Account deactivated"))])]))
  ∧ (∀ (users : List DBUser) (roles : List RoleRec) (cmp : Str → Str → Bool)
        (email password as rs : Str) (at' rt now : Nat) (req : ReqInfo)
        (u : DBUser),
        findByEmailWithPassword users email = some u → u.isActive = true →
        cmp password u.password = false →
        login users roles cmp email password as rs at' rt now req =
          (.error (.error "Invalid credentials"), users,
           [logAuthEventRec (toStr "FAILED_LOGIN") req (some u)
              (.obj [(toStr "email", .str email)])])) := by
  refine ⟨?_, ?_, ?_⟩
  · intro users roles cmp email password as rs at' rt now req hfind
    simp [login, hfind]
  · intro users roles cmp email password as rs at' rt now req u hfind hact
    simp [login, hfind, hact]
  · intro users roles cmp email password as rs at' rt now req u hfind hact hcmp
    simp [login, hfind, hact, hcmp]

/-- C6 counterexample: login with a deactivated account is rejected with
one `FAILED_LOGIN` record, but that record's `userId` IS the resolved
actor id (`some "u1"`), and its payload carries a `reason` — not the
attempted email — contradicting "including the attempted email and without
a resolved actor id" for every rejected attempt. -/
theorem C6_counterexample :
    login [⟨toStr "u1", toStr "a@b.co", toStr "h", toStr "r1", false,
            none, none, none⟩]
      [] (fun _ _ => true) (toStr "a@b.co") (toStr "pw") (toStr "s1") (toStr "s2")
      900000 604800000 0 ⟨none, none, .null, none, none⟩ =
      (.error (.error "Account is deactivated"),
       [⟨toStr "u1", toStr "a@b.co", toStr "h", toStr "r1", false,
         none, none, none⟩],
       [⟨some (.str (toStr "u1")), toStr "FAILED_LOGIN", toStr "auth",
         some (toStr "u1"), .null,
         .obj [(toStr "reason", .str (toStr "Account deactivated"))],
         none, none⟩])
  ∧ getField (JVal.obj [(toStr "reason", .str (toStr "Account deactivated"))])
      (toStr "email") = none := ⟨rfl, rfl⟩

/-- Witness for C6 at concrete inputs. -/
theorem C6_witness :
    login [] [] (fun _ _ => true) (toStr "x@y.z") (toStr "pw") (toStr "s1")
        (toStr "s2") 900000 604800000 0 ⟨none, none, .null, none, none⟩ =
      (.error (.error "Invalid credentials"), [],
       [logAuthEventRec (toStr "FAILED_LOGIN") ⟨none, none, .null, none, none⟩
          none (.obj [(toStr "email", .str (toStr "x@y.z"))])])
  ∧ login [⟨toStr "u2", toStr "c@d.co", toStr "h", toStr "r1", false,
        none, none, none⟩]
      [] (fun _ _ => true) (toStr "c@d.co") (toStr "pw") (toStr "s1") (toStr "s2")
      900000 604800000 0 ⟨none, none, .null, none, none⟩ =
      (.error (.error "Account is deactivated"),
       [⟨toStr "u2", toStr "c@d.co", toStr "h", toStr "r1", false,
         none, none, none⟩],
       [logAuthEventRec (toStr "FAILED_LOGIN") ⟨none, none, .null, none, none⟩
          (some ⟨toStr "u2", toStr "c@d.co", toStr "h", toStr "r1", false,
            none, none, none⟩)
          (.obj [(toStr "reason", .str (toStr "Account deactivated"))])])
  ∧ login [⟨toStr "u3", toStr "e@f.co", toStr "h", toStr "r1", true,
        none, none, none⟩]
      [] (fun _ _ => false) (toStr "e@f.co") (toStr "pw") (toStr "s1") (toStr "s2")
      900000 604800000 0 ⟨none, none, .null, none, none⟩ =
      (.error (.error "Invalid credentials"),
       [⟨toStr "u3", toStr "e@f.co", toStr "h", toStr "r1", true,
         none, none, none⟩],
       [logAuthEventRec (toStr "FAILED_LOGIN") ⟨none, none, .null, none, none⟩
          (some ⟨toStr "u3", toStr "e@f.co", toStr "h", toStr "r1", true,
            none, none, none⟩)
          (.obj [(toStr "email", .str (toStr "e@f.co"))])]) := by
  refine ⟨C6_failed_login_audit.1 [] [] _ _ _ _ _ _ _ _ _ rfl,
    C6_failed_login_audit.2.1 _ [] _ _ _ _ _ _ _ _ _ _ rfl rfl,
    C6_failed_login_audit.2.2 _ [] _ _ _ _ _ _ _ _ _ _ rfl rfl rfl⟩

/-! ### Claim C9: forgot-password enumeration resistance -/

/-- The successful response of `AuthService.forgotPassword`: the constant
message, plus — in the account-exists case only — the minted reset token
(the code returns it in the response body, flagged
"Remove this in production"). -/
structure ForgotOutcome where
  message : Str
  resetToken : Option Token
deriving DecidableEq, Repr

/-- The constant forgot-password message. -/
def forgotMessage : Str :=
  toStr "If an account with this email exists, a password reset link has been sent"

/-- `AuthService.forgotPassword(email, req)`. -/
def forgotPassword (users : List DBUser) (email : Str) (accessSecret : Str)
    (now : Nat) (req : ReqInfo) : ForgotOutcome × List DBUser × List AuditRec :=
  match users.find? (fun u => decide (u.email = email)) with
  | none => ({ message := forgotMessage, resetToken := none }, users, [])
  | some u =>
    let tok := generatePasswordResetToken u.id accessSecret now
    let u' := { u with
      resetPasswordToken := some tok
      resetPasswordExpires := some (now + hourMs) }
    ({ message := forgotMessage, resetToken := some tok },
     users.map (fun v => if v.id = u.id then u' else v),
     [logUserActionRec (toStr "RESET_PASSWORD") (toStr "auth") u.id u .null
        (.obj [(toStr "email", .str email)]) (some req)])

/-- C9 (code bug).  The message is the identical enumeration-resistant
constant in both cases, as the claim says; but the response also carries a
`resetToken` field exactly when the account exists (the code returns the
minted token in the body, with inline comments flagging it as a
non-production leftover), so the caller CAN tell whether the account
exists.  This theorem evaluates the code on both branches. -/
theorem C9_forgot_password_response (users : List DBUser) (email secret : Str)
    (now : Nat) (req : ReqInfo) :
    (forgotPassword users email secret now req).1.message = forgotMessage
  ∧ (forgotPassword users email secret now req).1.resetToken.isSome =
      (users.find? (fun u => decide (u.email = email))).isSome := by
  cases hfind : users.find? (fun u => decide (u.email = email)) with
  | none => simp [forgotPassword, hfind]
  | some u => simp [forgotPassword, hfind]

/-! ### Claim C4: password reset is single-use -/

/-- Did an `Except` computation fail? -/
def isErr : Except JSErr α → Bool
  | .error _ => true
  | .ok _ => false

/-- The Mongo query of `AuthService.resetPassword`: same `_id` as the
decoded token, stored reset token equal to the presented token string, and
stored expiry strictly in the future (`$gt: Date.now()`). -/
def resetQuery (decodedUserId : Str) (tok : Token) (now : Nat) (u : DBUser) :
    Bool :=
  decide (u.id = decodedUserId) && decide (u.resetPasswordToken = some tok) &&
    (match u.resetPasswordExpires with
     | some t => decide (now < t)
     | none => false)

/-- `AuthService.resetPassword(token, newPassword, req)`.  `hash` models the
pre-save bcrypt hook. -/
def resetPassword (users : List DBUser) (tok : Token) (newPassword : Str)
    (accessSecret : Str) (now : Nat) (hash : Str → Str) (req : ReqInfo) :
    Except JSErr (List DBUser × List AuditRec) :=
  match verifyPasswordResetToken tok accessSecret now with
  | .error e => .error e
  | .ok decoded =>
    match users.find? (resetQuery decoded.userId tok now) with
    | none => .error (.error "Invalid or expired reset token")
    | some u =>
      let u' := { u with
        password := hash newPassword
        resetPasswordToken := none
        resetPasswordExpires := none }
      .ok (users.map (fun v => if v.id = u.id then u' else v),
        [logUserActionRec (toStr "CHANGE_PASSWORD") (toStr "auth") u.id u' .null
           (.obj [(toStr "reason", .str (toStr "Password reset"))]) (some req)])

theorem verifyPasswordResetToken_ok {tok : Token} {secret : Str} {now : Nat}
    {d : JwtPayload} (h : verifyPasswordResetToken tok secret now = .ok d) :
    d = tok.payload ∧ tok.secret = secret ∧ now < tok.exp ∧
      tok.payload.tokenType = some passwordResetType := by
  by_cases hv : tok.secret = secret ∧ now < tok.exp
  · simp only [verifyPasswordResetToken, jwtVerify, if_pos hv] at h
    by_cases ht : tok.payload.tokenType = some passwordResetType
    · simp only [ht, ne_eq, not_true_eq_false, if_neg, Except.ok.injEq,
        reduceIte] at h
      exact ⟨h.symm, hv.1, hv.2, ht⟩
    · simp [ht] at h
  · simp [verifyPasswordResetToken, jwtVerify, if_neg hv] at h

/-- C4 (confirmed).  `resetPassword` succeeds only when the decoded
principal's stored reset-token field equals the presented token and the
stored expiry is strictly in the future; on success the stored secret is
replaced by the (hashed) new password and both reset fields are cleared,
so a second presentation of the same token string — still cryptographically
valid — fails, and no state change is produced (errors return no new
collection), leaving the password unchanged. -/
theorem C4_reset_single_use :
    ∀ (users : List DBUser) (tok : Token) (pw secret : Str) (now : Nat)
      (hash : Str → Str) (req : ReqInfo) (users' : List DBUser)
      (recs : List AuditRec),
      resetPassword users tok pw secret now hash req = .ok (users', recs) →
      (∃ u ∈ users, u.id = tok.payload.userId ∧
          u.resetPasswordToken = some tok ∧
          ∃ t, u.resetPasswordExpires = some t ∧ now < t)
      ∧ (∃ u' ∈ users', u'.id = tok.payload.userId ∧ u'.password = hash pw ∧
          u'.resetPasswordToken = none ∧ u'.resetPasswordExpires = none)
      ∧ ∀ (pw2 : Str) (now2 : Nat) (hash2 : Str → Str) (req2 : ReqInfo),
          isErr (resetPassword users' tok pw2 secret now2 hash2 req2) = true := by
  intro users tok pw secret now hash req users' recs hok
  cases hv : verifyPasswordResetToken tok secret now with
  | error e => simp [resetPassword, hv] at hok
  | ok d =>
    obtain ⟨rfl, hsec, hexp, htype⟩ := verifyPasswordResetToken_ok hv
    cases hf : users.find? (resetQuery tok.payload.userId tok now) with
    | none => simp [resetPassword, hv, hf] at hok
    | some u =>
      simp only [resetPassword, hv, hf, Except.ok.injEq, Prod.mk.injEq] at hok
      obtain ⟨husers, -⟩ := hok
      have humem : u ∈ users := List.mem_of_find?_eq_some hf
      have hq : resetQuery tok.payload.userId tok now u = true :=
        List.find?_some hf
      simp only [resetQuery, Bool.and_eq_true, decide_eq_true_eq] at hq
      obtain ⟨⟨hid, htok⟩, hexpq⟩ := hq
      have hexpw : ∃ t, u.resetPasswordExpires = some t ∧ now < t := by
        cases he : u.resetPasswordExpires with
        | none => rw [he] at hexpq; simp at hexpq
        | some t =>
          rw [he] at hexpq
          exact ⟨t, rfl, by simpa using hexpq⟩
      refine ⟨⟨u, humem, hid, htok, hexpw⟩, ?_, ?_⟩
      · refine ⟨{ u with password := hash pw, resetPasswordToken := none, resetPasswordExpires := none }, ?_, hid, rfl, rfl, rfl⟩
        rw [← husers]
        have := List.mem_map_of_mem (fun v => if v.id = u.id then { u with password := hash pw, resetPasswordToken := none, resetPasswordExpires := none } else v) humem
        simpa using this
      · intro pw2 now2 hash2 req2
        cases hv2 : verifyPasswordResetToken tok secret now2 with
        | error e => simp [resetPassword, hv2, isErr]
        | ok d2 =>
          obtain ⟨rfl, -, -, -⟩ := verifyPasswordResetToken_ok hv2
          have hnone : users'.find? (resetQuery tok.payload.userId tok now2) = none := by
            rw [List.find?_eq_none]
            intro v hvmem
            rw [← husers] at hvmem
            obtain ⟨w, hw, hweq⟩ := List.mem_map.1 hvmem
            by_cases hwid : w.id = u.id
            · rw [if_pos hwid] at hweq
              subst hweq
              simp [resetQuery]
            · rw [if_neg hwid] at hweq
              subst hweq
              simp only [resetQuery, Bool.and_eq_true, decide_eq_true_eq, not_and]
              intro hcontra
              exact absurd (hcontra.1.trans hid.symm) hwid
          simp [resetPassword, hv2, hnone, isErr]

/-- Witness for C4 at concrete inputs: a stored reset token is consumed
once, and the second presentation of the same token fails. -/
theorem C4_witness :
    isErr (resetPassword
      [⟨toStr "u1", toStr "a@b.co", toStr "npw", toStr "r1", true, none, none, none⟩]
      (generatePasswordResetToken (toStr "u1") (toStr "s") 0) (toStr "npw2")
      (toStr "s") 6 (fun s => s) ⟨none, none, .null, none, none⟩) = true :=
  (C4_reset_single_use
    [⟨toStr "u1", toStr "a@b.co", toStr "old", toStr "r1", true, none,
      some (generatePasswordResetToken (toStr "u1") (toStr "s") 0), some 10⟩]
    (generatePasswordResetToken (toStr "u1") (toStr "s") 0) (toStr "npw")
    (toStr "s") 5 (fun s => s) ⟨none, none, .null, none, none⟩
    [⟨toStr "u1", toStr "a@b.co", toStr "npw", toStr "r1", true, none, none, none⟩]
    [logUserActionRec (toStr "CHANGE_PASSWORD") (toStr "auth") (toStr "u1")
      ⟨toStr "u1", toStr "a@b.co", toStr "npw", toStr "r1", true, none, none, none⟩
      .null (.obj [(toStr "reason", .str (toStr "Password reset"))])
      (some ⟨none, none, .null, none, none⟩)]
    rfl).2.2 (toStr "npw2") 6 (fun s => s) ⟨none, none, .null, none, none⟩

/-! ### Claim C8: super role protection and guarded role deletion -/

/-- The protected role name. -/
def superAdminName : Str := toStr "super-admin"

/-- `RoleService.deleteRole(roleId)`: not-found, protected-role and
in-use checks, then `findByIdAndDelete`. -/
def deleteRole (roles : List RoleRec) (users : List DBUser) (roleId : Str) :
    Except JSErr (List RoleRec) :=
  match roles.find? (fun r => decide (r.id = roleId)) with
  | none => .error (.error "Role not found")
  | some r =>
    if r.name = superAdminName then
      .error (.error "Cannot delete super-admin role")
    else if 0 < (users.filter (fun u => decide (u.role = roleId))).length then
      .error (.error "Cannot delete role that is assigned to users")
    else .ok (roles.filter (fun x => decide (¬ x.id = roleId)))

/-- The `updateData` of `RoleService.updateRole`; every field optional. -/
structure RoleUpdate where
  name : Option Str := none
  description : Option Str := none
  permissions : Option (List Str) := none

/-- `updateData.name && updateData.name !== currentRole.name &&
await Role.findOne({name})`: the duplicate-name guard (a present but empty
name string is falsy and skips the guard). -/
def nameTakenChk (roles : List RoleRec) (cur : RoleRec) (nm : Option Str) :
    Bool :=
  match nm with
  | some n => decide (¬ n = []) && decide (¬ n = cur.name) &&
      (roles.find? (fun r => decide (r.name = n))).isSome
  | none => false

/-- `currentRole.name === 'super-admin' && updateData.name &&
updateData.name !== 'super-admin'`. -/
def renameSuperChk (cur : RoleRec) (nm : Option Str) : Bool :=
  decide (cur.name = superAdminName) &&
  (match nm with
   | some n => decide (¬ n = []) && decide (¬ n = superAdminName)
   | none => false)

/-- `currentRole.name === 'super-admin' && updateData.permissions &&
!updateData.permissions.includes('*:*')` (an array, even empty, is
truthy). -/
def stripWildChk (cur : RoleRec) (ps : Option (List Str)) : Bool :=
  decide (cur.name = superAdminName) &&
  (match ps with
   | some l => decide (wildAll ∉ l)
   | none => false)

/-- `findByIdAndUpdate` field application. -/
def applyRoleUpdate (r : RoleRec) (upd : RoleUpdate) : RoleRec :=
  { r with
    name := upd.name.getD r.name
    description := upd.description.getD r.description
    permissions := upd.permissions.getD r.permissions }

/-- `RoleService.updateRole(roleId, updateData)`.  `findByIdAndUpdate` runs
with `runValidators: true`, so setting `name` to the empty string fails the
schema's `required` validator (modelled as the final validation check). -/
def updateRole (roles : List RoleRec) (roleId : Str) (upd : RoleUpdate) :
    Except JSErr (List RoleRec) :=
  match roles.find? (fun r => decide (r.id = roleId)) with
  | none => .error (.error "Role not found")
  | some cur =>
    if nameTakenChk roles cur upd.name then
      .error (.error "Role name already exists")
    else if renameSuperChk cur upd.name then
      .error (.error "Cannot rename super-admin role")
    else if stripWildChk cur upd.permissions then
      .error (.error "Super-admin role must have *:* permission")
    else if upd.name = some [] then
      .error (.error "Role validation failed")
    else .ok (roles.map (fun r => if r.id = roleId then applyRoleUpdate r upd else r))

/-- C8 (confirmed).  Deleting the role named `super-admin` fails with the
protected-role error; deleting any role referenced by at least one user
fails with the in-use error (errors return no new collection, so the role
persists unchanged); and a successful `updateRole` on the super role never
changes its name and never removes `*:*` from its permissions — so the
updated super role still carries the universal wildcard in the new
collection. -/
theorem C8_super_role_protected :
    (∀ (roles : List RoleRec) (users : List DBUser) (roleId : Str) (r : RoleRec),
        roles.find? (fun x => decide (x.id = roleId)) = some r →
        r.name = superAdminName →
        deleteRole roles users roleId = .error (.error "Cannot delete super-admin role"))
  ∧ (∀ (roles : List RoleRec) (users : List DBUser) (roleId : Str) (r : RoleRec)
        (u : DBUser),
        roles.find? (fun x => decide (x.id = roleId)) = some r →
        ¬ r.name = superAdminName → u ∈ users → u.role = roleId →
        deleteRole roles users roleId =
          .error (.error "Cannot delete role that is assigned to users"))
  ∧ (∀ (roles : List RoleRec) (roleId : Str) (upd : RoleUpdate) (cur : RoleRec)
        (roles' : List RoleRec),
        roles.find? (fun x => decide (x.id = roleId)) = some cur →
        cur.name = superAdminName → wildAll ∈ cur.permissions →
        updateRole roles roleId upd = .ok roles' →
        (applyRoleUpdate cur upd).name = superAdminName ∧
        wildAll ∈ (applyRoleUpdate cur upd).permissions ∧
        applyRoleUpdate cur upd ∈ roles') := by
  refine ⟨?_, ?_, ?_⟩
  · intro roles users roleId r hfind hname
    simp [deleteRole, hfind, hname]
  · intro roles users roleId r u hfind hname hmem hrole
    have hpos : 0 < (users.filter (fun u => decide (u.role = roleId))).length := by
      have : u ∈ users.filter (fun u => decide (u.role = roleId)) :=
        List.mem_filter.2 ⟨hmem, by simp [hrole]⟩
      exact List.length_pos.2 (List.ne_nil_of_mem this)
    simp [deleteRole, hfind, hname, hpos]
  · intro roles roleId upd cur roles' hfind hsuper hwild hok
    simp only [updateRole, hfind] at hok
    by_cases h1 : nameTakenChk roles cur upd.name = true
    · simp [h1] at hok
    by_cases h2 : renameSuperChk cur upd.name = true
    · simp [h1, h2] at hok
    by_cases h3 : stripWildChk cur upd.permissions = true
    · simp [h1, h2, h3] at hok
    by_cases h4 : upd.name = some []
    · rw [h4] at hok
      simp [nameTakenChk, renameSuperChk, h3] at hok
    simp only [h1, h2, h3, h4, Bool.false_eq_true, if_false, Except.ok.injEq] at hok
    have hid : cur.id = roleId := by simpa using List.find?_some hfind
    have hname : (applyRoleUpdate cur upd).name = superAdminName := by
      cases hn : upd.name with
      | none => simpa [applyRoleUpdate, hn] using hsuper
      | some n =>
        cases n with
        | nil => exact absurd hn h4
        | cons c cs =>
          rw [hn] at h2
          simp only [applyRoleUpdate, hn, Option.getD_some]
          by_contra hne
          exact h2 (by simp [renameSuperChk, hsuper, hne])
    have hperm : wildAll ∈ (applyRoleUpdate cur upd).permissions := by
      cases hp : upd.permissions with
      | none => simpa [applyRoleUpdate, hp] using hwild
      | some ps =>
        rw [hp] at h3
        simp only [applyRoleUpdate, hp, Option.getD_some]
        by_contra hmem
        exact h3 (by simp [stripWildChk, hsuper, hmem])
    refine ⟨hname, hperm, ?_⟩
    rw [← hok]
    have hcur : cur ∈ roles := List.mem_of_find?_eq_some hfind
    have := List.mem_map_of_mem
      (fun r => if r.id = roleId then applyRoleUpdate r upd else r) hcur
    simpa [hid] using this

/-- Witness for C8 at concrete inputs. -/
theorem C8_witness :
    deleteRole [⟨toStr "r1", superAdminName, [wildAll], toStr "d", true⟩] []
        (toStr "r1") = .error (.error "Cannot delete super-admin role")
  ∧ deleteRole [⟨toStr "r2", toStr "editors", [toStr "user:read"], toStr "d", true⟩]
        [⟨toStr "u1", toStr "a@b.co", toStr "h", toStr "r2", true, none, none, none⟩]
        (toStr "r2") = .error (.error "Cannot delete role that is assigned to users")
  ∧ ((applyRoleUpdate ⟨toStr "r1", superAdminName, [wildAll], toStr "d", true⟩
        { permissions := some [wildAll, toStr "user:read"] }).name = superAdminName ∧
     wildAll ∈ (applyRoleUpdate ⟨toStr "r1", superAdminName, [wildAll], toStr "d", true⟩
        { permissions := some [wildAll, toStr "user:read"] }).permissions ∧
     applyRoleUpdate ⟨toStr "r1", superAdminName, [wildAll], toStr "d", true⟩
        { permissions := some [wildAll, toStr "user:read"] } ∈
       [applyRoleUpdate ⟨toStr "r1", superAdminName, [wildAll], toStr "d", true⟩
         { permissions := some [wildAll, toStr "user:read"] }]) := by
  refine ⟨C8_super_role_protected.1 _ [] (toStr "r1") _ rfl rfl,
    C8_super_role_protected.2.1 _ _ (toStr "r2") _
      ⟨toStr "u1", toStr "a@b.co", toStr "h", toStr "r2", true, none, none, none⟩
      rfl (by decide) (List.mem_singleton.2 rfl) rfl,
    C8_super_role_protected.2.2
      [⟨toStr "r1", superAdminName, [wildAll], toStr "d", true⟩] (toStr "r1")
      { permissions := some [wildAll, toStr "user:read"] }
      ⟨toStr "r1", superAdminName, [wildAll], toStr "d", true⟩
      [applyRoleUpdate ⟨toStr "r1", superAdminName, [wildAll], toStr "d", true⟩
        { permissions := some [wildAll, toStr "user:read"] }]
      rfl rfl (List.mem_singleton.2 rfl) rfl⟩
